import Mathlib

/-!
Shallow embedding of the announcements router of a school-management HTTP
service (`src/backend/routers/announcements.py`) and verification of its
natural-language specification.

Modelling conventions:
* A Python `datetime` value is `PyDateTime`: an `instant` (a point on a
  linear time axis, minutes/seconds are irrelevant to the logic) plus an
  optional timezone offset `tzinfo` (`none` = naive).  Comparisons between
  timezone-aware datetimes compare instants, which is exactly how Python
  compares aware datetimes.  For a naive datetime the `instant` records its
  wall-clock reading interpreted as UTC, so `replace(tzinfo=utc)` keeps the
  `instant` and sets `tzinfo` to offset `0`.
* `datetime.fromisoformat` and `datetime.isoformat` are external library
  functions; the embedding is parameterised by `fromiso : String → Option
  PyDateTime` (`none` models `ValueError`) and `isoformat : PyDateTime →
  String`.
* `HTTPException(status_code, detail)` is `ApiError`; a handler outcome is
  `Res α`: `ok`, `err` (a raised `HTTPException`), or `crash` (an unhandled
  Python exception such as `KeyError`/`TypeError`).
* The Mongo-like document store is a `List Doc` threaded explicitly;
  `find_one`/`update_one`/`delete_one` act on the first document whose
  `_id` matches, as Mongo does.  The teacher credential store is the set
  (list) of existing teacher usernames, since `_validate_teacher` only
  checks existence.
* `str.replace` is `pyReplace` (left-to-right, non-overlapping), and
  `str.strip()` is `pyStrip` (drop leading and trailing whitespace).
-/

namespace Announcements

/-- A Python `datetime`: a point on the time axis plus an optional
timezone offset (`none` = naive datetime). -/
structure PyDateTime where
  instant : Int
  tzinfo : Option Int
deriving DecidableEq, Repr

/-- `fastapi.HTTPException`: status code and detail message. -/
structure ApiError where
  status_code : Nat
  detail : String
deriving DecidableEq, Repr

instance instDecEqExcept {ε α : Type} [DecidableEq ε] [DecidableEq α] :
    DecidableEq (Except ε α) := fun a b =>
  match a, b with
  | .ok x, .ok y =>
    if h : x = y then isTrue (congrArg Except.ok h)
    else isFalse (fun hh => h (Except.ok.inj hh))
  | .error x, .error y =>
    if h : x = y then isTrue (congrArg Except.error h)
    else isFalse (fun hh => h (Except.error.inj hh))
  | .ok _, .error _ => isFalse (fun hh => Except.noConfusion hh)
  | .error _, .ok _ => isFalse (fun hh => Except.noConfusion hh)

/-- Outcome of a handler: a returned value, a raised `HTTPException`, or an
unhandled Python exception (`KeyError`, `TypeError` …). -/
inductive Res (α : Type) where
  | ok (val : α)
  | err (e : ApiError)
  | crash
deriving DecidableEq, Repr

/-- Python `str.replace` on character lists: replaces the non-overlapping
occurrences of `t` left to right by `r` (for nonempty `t`; the code only
calls it with `t = "Z"`).  Structural recursion on a fuel argument so that
the kernel can evaluate it; each step consumes at least one character, so
`fuel = length of the input` always suffices. -/
def pyReplaceAux (t r : List Char) : Nat → List Char → List Char
  | _, [] => []
  | 0, l => l
  | fuel + 1, c :: rest =>
    if t ≠ [] ∧ t.isPrefixOf (c :: rest) then
      r ++ pyReplaceAux t r fuel ((c :: rest).drop t.length)
    else
      c :: pyReplaceAux t r fuel rest

/-- Python `str.replace` on character lists. -/
def pyReplaceList (t r l : List Char) : List Char :=
  pyReplaceAux t r l.length l

/-- Python `value.replace(t, r)` on strings. -/
def pyReplace (value t r : String) : String :=
  ⟨pyReplaceList t.data r.data value.data⟩

/-- Python's `str.isspace` character class (ASCII part). -/
def pyIsSpace (c : Char) : Bool :=
  c = ' ' || c = '\t' || c = '\n' || c = '\r' || c = '\x0b' || c = '\x0c'

/-- Python `message.strip()`: drop leading and trailing whitespace. -/
def pyStrip (s : String) : String :=
  ⟨((s.data.dropWhile pyIsSpace).reverse.dropWhile pyIsSpace).reverse⟩

/-- `_parse_iso_date(value, field_name, required)`, parameterised by the
external `datetime.fromisoformat` (`none` models `ValueError`). -/
def _parse_iso_date (fromiso : String → Option PyDateTime)
    (value : Option String) (field_name : String) (required : Bool) :
    Except ApiError (Option PyDateTime) :=
  match value with
  | none =>
    if required then
      .error ⟨400, field_name ++ " is required"⟩
    else
      .ok none
  | some v =>
    match fromiso (pyReplace v "Z" "+00:00") with
    | none => .error ⟨400, field_name ++ " must be a valid ISO date"⟩
    | some parsed =>
      if parsed.tzinfo = none then
        .ok (some { parsed with tzinfo := some 0 })
      else
        .ok (some parsed)

/-- A stored announcement document.  `_id` and `message` are always present
(every code path reads them unconditionally); `start_date`, `expiration_date`
and `created_at` may be absent (`doc.get` is used for the first and last, and
the parser treats a missing `expiration_date` explicitly). -/
structure Doc where
  _id : String
  message : String
  start_date : Option String
  expiration_date : Option String
  created_at : Option String
deriving DecidableEq, Repr

/-- The normalized response record `{id, message, start_date,
expiration_date, created_at}`. -/
structure SDoc where
  id : String
  message : String
  start_date : Option String
  expiration_date : String
  created_at : Option String
deriving DecidableEq, Repr

/-- `_serialize(doc)`: `doc["expiration_date"]` raises `KeyError` when the
field is absent, hence the `Option` result (`none` = crash). -/
def _serialize (doc : Doc) : Option SDoc :=
  match doc.expiration_date with
  | none => none
  | some e => some ⟨doc._id, doc.message, doc.start_date, e, doc.created_at⟩

/-- The announcements collection. -/
abbrev Store := List Doc

/-- `announcements_collection.find_one({"_id": aid})`: first document whose
`_id` matches. -/
def find_one (aid : String) : Store → Option Doc
  | [] => none
  | d :: rest => if d._id = aid then some d else find_one aid rest

/-- The `$set` document used by `update_announcement`. -/
structure UpdateFields where
  message : String
  start_date : Option String
  expiration_date : String
deriving DecidableEq, Repr

/-- Applying the `$set` document to one stored document. -/
def applySet (u : UpdateFields) (d : Doc) : Doc :=
  { d with
    message := u.message
    start_date := u.start_date
    expiration_date := some u.expiration_date }

/-- `update_one({"_id": aid}, {"$set": u})`: updates the first matching
document. -/
def update_one (aid : String) (u : UpdateFields) : Store → Store
  | [] => []
  | d :: rest =>
    if d._id = aid then applySet u d :: rest else d :: update_one aid u rest

/-- `delete_one({"_id": aid})`: removes the first matching document and
reports `deleted_count`. -/
def delete_one (aid : String) : Store → Nat × Store
  | [] => (0, [])
  | d :: rest =>
    if d._id = aid then (1, rest)
    else
      let r := delete_one aid rest
      (r.1, d :: r.2)

/-- Lexicographic `≤` on character lists (the document store compares the
stored ISO strings lexicographically). -/
def lexLe : List Char → List Char → Bool
  | [], _ => true
  | _ :: _, [] => false
  | a :: as, b :: bs => if a = b then lexLe as bs else decide (a < b)

/-- Mongo compares `created_at` values with missing (`None`) sorting lowest;
`cAtLe a b` means `a ≤ b` in that order. -/
def cAtLe : Option String → Option String → Bool
  | none, _ => true
  | some _, none => false
  | some x, some y => lexLe x.data y.data

/-- `d1` may come before `d2` in `.sort("created_at", -1)` (descending). -/
def docBefore (d1 d2 : Doc) : Prop :=
  cAtLe d2.created_at d1.created_at = true

instance : DecidableRel docBefore := fun d1 d2 =>
  inferInstanceAs (Decidable (cAtLe d2.created_at d1.created_at = true))

/-- `announcements_collection.find().sort("created_at", -1)`. -/
def sortDocs (l : Store) : Store :=
  List.insertionSort docBefore l

/-- `_validate_teacher`: existence lookup in the teacher credential store. -/
def _validate_teacher (teachers : List String) (teacher_username : String) :
    Except ApiError Unit :=
  if teacher_username ∈ teachers then .ok ()
  else .error ⟨401, "Invalid teacher credentials"⟩

/-- The request body model `AnnouncementUpsert`. -/
structure AnnouncementUpsert where
  message : String
  expiration_date : String
  start_date : Option String
deriving DecidableEq, Repr

/-- Pydantic validation of `AnnouncementUpsert` (`message: Field(...,
min_length=1, max_length=500)`); failure is FastAPI's 422 request-validation
error, raised before the handler runs. -/
def validate_upsert (message : String) (expiration_date : String)
    (start_date : Option String) : Except ApiError AnnouncementUpsert :=
  if message.length < 1 then
    .error ⟨422, "String should have at least 1 character"⟩
  else if message.length > 500 then
    .error ⟨422, "String should have at most 500 characters"⟩
  else
    .ok ⟨message, expiration_date, start_date⟩

/-- The truthiness test `start_date and start_date >= expiration_date`
guarding the cross-field check (a non-`None` datetime is truthy). -/
def startGeExp (start_date : Option PyDateTime) (expiration_date : PyDateTime) : Bool :=
  match start_date with
  | some sd => decide (expiration_date.instant ≤ sd.instant)
  | none => false

/-- `start_date.isoformat() if start_date else None`. -/
def isoOpt (isoformat : PyDateTime → String) : Option PyDateTime → Option String
  | some sd => some (isoformat sd)
  | none => none

/-- The loop body of `get_active_announcements` over the sorted documents:
parse each document's dates, skip inactive ones, serialize the rest. -/
def get_active_loop (fromiso : String → Option PyDateTime) (now : PyDateTime) :
    List Doc → Res (List SDoc)
  | [] => .ok []
  | doc :: rest =>
    match _parse_iso_date fromiso doc.start_date "start_date" false with
    | .error e => .err e
    | .ok start_date =>
      match _parse_iso_date fromiso doc.expiration_date "expiration_date" true with
      | .error e => .err e
      | .ok none => .crash
      | .ok (some expiration_date) =>
        if expiration_date.instant < now.instant then
          get_active_loop fromiso now rest
        else if (match start_date with
                 | some sd => decide (now.instant < sd.instant)
                 | none => false) then
          get_active_loop fromiso now rest
        else
          match _serialize doc with
          | none => .crash
          | some s =>
            match get_active_loop fromiso now rest with
            | .ok l => .ok (s :: l)
            | r => r

/-- `GET /announcements` (`get_active_announcements`): `now` is read once at
the top of the handler and used unchanged for every document. -/
def get_active_announcements (fromiso : String → Option PyDateTime)
    (now : PyDateTime) (store : Store) : Res (List SDoc) :=
  get_active_loop fromiso now (sortDocs store)

/-- The list comprehension `[_serialize(doc) for doc in docs]`: serializes
each document in order; `none` models the `KeyError` the first malformed
document raises. -/
def serializeAll : List Doc → Option (List SDoc)
  | [] => some []
  | d :: rest =>
    match _serialize d, serializeAll rest with
    | some s, some l => some (s :: l)
    | _, _ => none

/-- `GET /announcements/manage` (`get_all_announcements`). -/
def get_all_announcements (teachers : List String) (teacher_username : String)
    (store : Store) : Res (List SDoc) :=
  match _validate_teacher teachers teacher_username with
  | .error e => .err e
  | .ok _ =>
    match serializeAll (sortDocs store) with
    | none => .crash
    | some l => .ok l

/-- `POST /announcements` (`create_announcement`), parameterised by the
external `uuid4` result `new_id` and the handler's `datetime.now` reading. -/
def create_announcement (fromiso : String → Option PyDateTime)
    (isoformat : PyDateTime → String) (now : PyDateTime) (new_id : String)
    (teachers : List String) (payload : AnnouncementUpsert)
    (teacher_username : String) (store : Store) : Res SDoc × Store :=
  match _validate_teacher teachers teacher_username with
  | .error e => (.err e, store)
  | .ok _ =>
    match _parse_iso_date fromiso payload.start_date "start_date" false with
    | .error e => (.err e, store)
    | .ok start_date =>
      match _parse_iso_date fromiso (some payload.expiration_date)
          "expiration_date" true with
      | .error e => (.err e, store)
      | .ok none => (.crash, store)
      | .ok (some expiration_date) =>
        if startGeExp start_date expiration_date then
          (.err ⟨400, "start_date must be before expiration_date"⟩, store)
        else
          let message := pyStrip payload.message
          if message = "" then
            (.err ⟨400, "message must not be empty or contain only whitespace"⟩,
              store)
          else
            let doc : Doc :=
              { _id := new_id
                message := message
                start_date := isoOpt isoformat start_date
                expiration_date := some (isoformat expiration_date)
                created_at := some (isoformat now) }
            match _serialize doc with
            | none => (.crash, store ++ [doc])
            | some s => (.ok s, store ++ [doc])

/-- `PUT /announcements/{announcement_id}` (`update_announcement`). -/
def update_announcement (fromiso : String → Option PyDateTime)
    (isoformat : PyDateTime → String) (announcement_id : String)
    (teachers : List String) (payload : AnnouncementUpsert)
    (teacher_username : String) (store : Store) : Res SDoc × Store :=
  match _validate_teacher teachers teacher_username with
  | .error e => (.err e, store)
  | .ok _ =>
    match find_one announcement_id store with
    | none => (.err ⟨404, "Announcement not found"⟩, store)
    | some _ =>
      match _parse_iso_date fromiso payload.start_date "start_date" false with
      | .error e => (.err e, store)
      | .ok start_date =>
        match _parse_iso_date fromiso (some payload.expiration_date)
            "expiration_date" true with
        | .error e => (.err e, store)
        | .ok none => (.crash, store)
        | .ok (some expiration_date) =>
          if startGeExp start_date expiration_date then
            (.err ⟨400, "start_date must be before expiration_date"⟩, store)
          else
            let message := pyStrip payload.message
            if message = "" then
              (.err ⟨400, "message must not be empty or contain only whitespace"⟩,
                store)
            else
              let updates : UpdateFields :=
                { message := message
                  start_date := isoOpt isoformat start_date
                  expiration_date := isoformat expiration_date }
              let store2 := update_one announcement_id updates store
              match find_one announcement_id store2 with
              | none => (.crash, store2)
              | some updated =>
                match _serialize updated with
                | none => (.crash, store2)
                | some s => (.ok s, store2)

/-- `DELETE /announcements/{announcement_id}` (`delete_announcement`). -/
def delete_announcement (announcement_id : String) (teachers : List String)
    (teacher_username : String) (store : Store) : Res String × Store :=
  match _validate_teacher teachers teacher_username with
  | .error e => (.err e, store)
  | .ok _ =>
    let result := delete_one announcement_id store
    if result.1 = 0 then (.err ⟨404, "Announcement not found"⟩, result.2)
    else (.ok "Announcement deleted", result.2)

/-- The create operation as seen by a caller: pydantic body validation, then
the handler. -/
def create_endpoint (fromiso : String → Option PyDateTime)
    (isoformat : PyDateTime → String) (now : PyDateTime) (new_id : String)
    (teachers : List String) (message expiration_date : String)
    (start_date : Option String) (teacher_username : String) (store : Store) :
    Res SDoc × Store :=
  match validate_upsert message expiration_date start_date with
  | .error e => (.err e, store)
  | .ok payload =>
    create_announcement fromiso isoformat now new_id teachers payload
      teacher_username store

/-- The update operation as seen by a caller: pydantic body validation, then
the handler. -/
def update_endpoint (fromiso : String → Option PyDateTime)
    (isoformat : PyDateTime → String) (announcement_id : String)
    (teachers : List String) (message expiration_date : String)
    (start_date : Option String) (teacher_username : String) (store : Store) :
    Res SDoc × Store :=
  match validate_upsert message expiration_date start_date with
  | .error e => (.err e, store)
  | .ok payload =>
    update_announcement fromiso isoformat announcement_id teachers payload
      teacher_username store

/-! ### Test fixtures

Concrete instantiations of the external-function parameters, used only to
exhibit witnesses: a finite `fromisoformat` table and a trivial
`isoformat`. -/

/-- A concrete `fromisoformat` table for witnesses. -/
def testIso : String → Option PyDateTime := fun s =>
  if s = "2000-01-01T00:00:00+00:00" then some ⟨0, some 0⟩
  else if s = "2050-01-01T00:00:00+00:00" then some ⟨50, some 0⟩
  else if s = "2099-01-01T00:00:00+00:00" then some ⟨99, some 0⟩
  else if s = "2099-06-01T00:00:00" then some ⟨95, none⟩
  else none

/-- A concrete `isoformat` for witnesses. -/
def testFmt : PyDateTime → String := fun dt => "dt" ++ toString dt.instant

/-- A concrete `datetime.now(timezone.utc)` reading for witnesses. -/
def tnow : PyDateTime := ⟨10, some 0⟩

/-! ### Lemmas about `pyReplace` -/

theorem pyReplaceAux_single_not_mem (z : Char) (r : List Char) :
    ∀ (l : List Char) (fuel : Nat), z ∉ l → pyReplaceAux [z] r fuel l = l
  | [], fuel, _ => by cases fuel <;> rfl
  | c :: rest, 0, _ => rfl
  | c :: rest, fuel + 1, h => by
    have hzc : ¬ [z].isPrefixOf (c :: rest) = true := by
      simp only [List.isPrefixOf, List.isPrefixOf_nil_left, Bool.and_true,
        beq_iff_eq]
      intro hc
      exact h (hc ▸ List.mem_cons_self c rest)
    have hrest : z ∉ rest := fun hm => h (List.mem_cons_of_mem c hm)
    simp [pyReplaceAux, hzc, pyReplaceAux_single_not_mem z r rest fuel hrest]

theorem pyReplaceAux_single_append (z : Char) (r : List Char) :
    ∀ (l : List Char) (fuel : Nat), z ∉ l → l.length < fuel →
      pyReplaceAux [z] r fuel (l ++ [z]) = l ++ r
  | [], fuel + 1, _, _ => by
    simp [pyReplaceAux, List.isPrefixOf]
  | c :: rest, fuel + 1, h, hf => by
    have hzc : ¬ [z].isPrefixOf (c :: (rest ++ [z])) = true := by
      simp only [List.isPrefixOf, List.isPrefixOf_nil_left, Bool.and_true,
        beq_iff_eq]
      intro hc
      exact h (hc ▸ List.mem_cons_self c rest)
    have hrest : z ∉ rest := fun hm => h (List.mem_cons_of_mem c hm)
    have hf2 : rest.length < fuel := Nat.lt_of_succ_lt_succ (by simpa using hf)
    simp [pyReplaceAux, hzc,
      pyReplaceAux_single_append z r rest fuel hrest hf2]

theorem pyReplace_not_mem (s t : String) (hz : 'Z' ∉ s.data) :
    pyReplace s "Z" t = s := by
  unfold pyReplace pyReplaceList
  apply String.ext
  exact pyReplaceAux_single_not_mem 'Z' t.data s.data s.data.length hz

theorem pyReplace_trailing_z (s t : String) (hz : 'Z' ∉ s.data) :
    pyReplace (s ++ "Z") "Z" t = s ++ t := by
  unfold pyReplace pyReplaceList
  apply String.ext
  rw [String.data_append, String.data_append]
  have hzd : ("Z" : String).data = ['Z'] := rfl
  rw [hzd]
  exact pyReplaceAux_single_append 'Z' t.data s.data
    (s.data ++ ['Z']).length hz (by simp)

/-! ### Basic parser lemmas -/

theorem parse_none_eq (fromiso : String → Option PyDateTime)
    (field_name : String) (required : Bool) :
    _parse_iso_date fromiso none field_name required =
      if required then .error ⟨400, field_name ++ " is required"⟩
      else .ok none := rfl

theorem parse_some_eq (fromiso : String → Option PyDateTime)
    (v field_name : String) (required : Bool) :
    _parse_iso_date fromiso (some v) field_name required =
      match fromiso (pyReplace v "Z" "+00:00") with
      | none => .error ⟨400, field_name ++ " must be a valid ISO date"⟩
      | some parsed =>
        if parsed.tzinfo = none then .ok (some { parsed with tzinfo := some 0 })
        else .ok (some parsed) := rfl

theorem parse_some_ne_ok_none (fromiso : String → Option PyDateTime)
    (v field_name : String) (required : Bool) :
    _parse_iso_date fromiso (some v) field_name required ≠ .ok none := by
  rw [parse_some_eq]
  cases hf : fromiso (pyReplace v "Z" "+00:00") with
  | none => simp
  | some parsed =>
    by_cases h : parsed.tzinfo = none <;> simp [h]

theorem parse_none_iff (fromiso : String → Option PyDateTime)
    (value : Option String) (field_name : String) (required : Bool)
    (x : Option PyDateTime)
    (h : _parse_iso_date fromiso value field_name required = .ok x) :
    x = none ↔ value = none := by
  cases value with
  | none =>
    rw [parse_none_eq] at h
    cases required with
    | true => simp at h
    | false => simp_all
  | some v =>
    simp only [iff_false, Option.some_ne_none]
    intro hx
    exact parse_some_ne_ok_none fromiso v field_name required (hx ▸ h)

/-- C5: the date parser returns an empty result for an absent optional value,
a `MissingField`-style 400 error naming the field for an absent required
value; a trailing `Z` is equivalent to a `+00:00` offset; a successfully
parsed value with no explicit offset is assigned UTC (offset `0`); and a
value `fromisoformat` rejects yields an `InvalidDate`-style 400 error naming
the field. -/
theorem C5_parse_iso_date_spec (fromiso : String → Option PyDateTime)
    (field_name : String) (required : Bool) (s v : String) (dt : PyDateTime)
    (hz : 'Z' ∉ s.data) :
    _parse_iso_date fromiso none field_name false = .ok none
    ∧ _parse_iso_date fromiso none field_name true =
        .error ⟨400, field_name ++ " is required"⟩
    ∧ _parse_iso_date fromiso (some (s ++ "Z")) field_name required =
        _parse_iso_date fromiso (some (s ++ "+00:00")) field_name required
    ∧ (fromiso (pyReplace v "Z" "+00:00") = some dt → dt.tzinfo = none →
        _parse_iso_date fromiso (some v) field_name required =
          .ok (some { dt with tzinfo := some 0 }))
    ∧ (fromiso (pyReplace v "Z" "+00:00") = none →
        _parse_iso_date fromiso (some v) field_name required =
          .error ⟨400, field_name ++ " must be a valid ISO date"⟩) := by
  refine ⟨rfl, rfl, ?_, ?_, ?_⟩
  · have h1 : pyReplace (s ++ "Z") "Z" "+00:00" = s ++ "+00:00" :=
      pyReplace_trailing_z s "+00:00" hz
    have h2 : pyReplace (s ++ "+00:00") "Z" "+00:00" = s ++ "+00:00" := by
      apply pyReplace_not_mem
      rw [String.data_append]
      simp only [List.mem_append, not_or]
      exact ⟨hz, by decide⟩
    rw [parse_some_eq, parse_some_eq, h1, h2]
  · intro hsome htz
    rw [parse_some_eq, hsome]
    simp [htz]
  · intro hnone
    rw [parse_some_eq, hnone]

/-- Witness for `C5_parse_iso_date_spec` at concrete inputs: the trailing-`Z`
form of a date parses like the `+00:00` form, and an offset-free date is
assigned UTC. -/
theorem C5_parse_iso_date_spec_witness :
    _parse_iso_date testIso (some ("2099-01-01T00:00:00" ++ "Z"))
        "expiration_date" true =
      _parse_iso_date testIso (some ("2099-01-01T00:00:00" ++ "+00:00"))
        "expiration_date" true
    ∧ _parse_iso_date testIso (some "2099-06-01T00:00:00") "start_date" false =
      .ok (some ⟨95, some 0⟩) :=
  ⟨(C5_parse_iso_date_spec testIso "expiration_date" true "2099-01-01T00:00:00"
      "2099-06-01T00:00:00" ⟨95, none⟩ (by decide)).2.2.1,
   (C5_parse_iso_date_spec testIso "start_date" false "2099-01-01T00:00:00"
      "2099-06-01T00:00:00" ⟨95, none⟩ (by decide)).2.2.2.1
      (by decide) (by decide)⟩

/-! ### The active-listing loop -/

/-- The source's per-document keep condition in `get_active_announcements`:
parse both dates, then skip when `expiration_date < now` or when a present
`start_date` is in the future. -/
def keepDoc (fromiso : String → Option PyDateTime) (now : PyDateTime)
    (doc : Doc) : Bool :=
  match _parse_iso_date fromiso doc.start_date "start_date" false,
        _parse_iso_date fromiso doc.expiration_date "expiration_date" true with
  | .ok start_date, .ok (some expiration_date) =>
    if expiration_date.instant < now.instant then false
    else if (match start_date with
             | some sd => decide (now.instant < sd.instant)
             | none => false) then false
    else true
  | _, _ => false

/-- The spec's active-window condition, stated from the spec's words: the
parsed `expiration_date` is `>= now`, and `start_date` is absent or its
parsed value is `<= now`. -/
def specActive (fromiso : String → Option PyDateTime) (now : PyDateTime)
    (doc : Doc) : Prop :=
  (∃ ed, _parse_iso_date fromiso doc.expiration_date "expiration_date" true
      = .ok (some ed) ∧ now.instant ≤ ed.instant)
  ∧ (doc.start_date = none
     ∨ ∃ sd, _parse_iso_date fromiso doc.start_date "start_date" false
        = .ok (some sd) ∧ sd.instant ≤ now.instant)

theorem parse_start_none (fromiso : String → Option PyDateTime) (doc : Doc)
    (h : doc.start_date = none) :
    _parse_iso_date fromiso doc.start_date "start_date" false = .ok none := by
  rw [h]
  rfl

theorem keepDoc_eq_true_iff (fromiso : String → Option PyDateTime)
    (now : PyDateTime) (doc : Doc) :
    keepDoc fromiso now doc = true ↔ specActive fromiso now doc := by
  constructor
  · intro h
    unfold keepDoc at h
    split at h
    case _ sd? ed hps hpe =>
      split at h
      · exact absurd h (by simp)
      · split at h
        · exact absurd h (by simp)
        · rename_i hlt hfut
          refine ⟨⟨ed, hpe, by omega⟩, ?_⟩
          cases hsd : sd? with
          | none =>
            exact Or.inl ((parse_none_iff fromiso doc.start_date "start_date"
              false sd? hps).mp hsd)
          | some sd =>
            subst hsd
            refine Or.inr ⟨sd, hps, ?_⟩
            simp at hfut
            omega
    case _ =>
      exact absurd h (by simp)
  · rintro ⟨⟨ed, hpe, hle⟩, hstart⟩
    unfold keepDoc
    rcases hstart with hsn | ⟨sd, hps, hsle⟩
    · rw [parse_start_none fromiso doc hsn, hpe]
      simp
      omega
    · rw [hps, hpe]
      simp
      omega

theorem keepDoc_congr (fromiso : String → Option PyDateTime)
    (now : PyDateTime) (d1 d2 : Doc) (hs : d1.start_date = d2.start_date)
    (he : d1.expiration_date = d2.expiration_date) :
    keepDoc fromiso now d1 = keepDoc fromiso now d2 := by
  unfold keepDoc
  rw [hs, he]

theorem get_active_loop_ok_mem (fromiso : String → Option PyDateTime)
    (now : PyDateTime) :
    ∀ (docs : List Doc) (l : List SDoc),
      get_active_loop fromiso now docs = .ok l →
      ∀ s : SDoc,
        (s ∈ l ↔ ∃ d ∈ docs, _serialize d = some s ∧ keepDoc fromiso now d = true)
  | [], l, h, s => by
    unfold get_active_loop at h
    simp only [Res.ok.injEq] at h
    subst h
    simp
  | doc :: rest, l, h, s => by
    unfold get_active_loop at h
    split at h
    case _ e hps => exact absurd h (by simp)
    case _ sd? hps =>
      split at h
      case _ e hpe => exact absurd h (by simp)
      case _ hpe => exact absurd h (by simp)
      case _ ed hpe =>
        split at h
        case _ hlt =>
          have hk : keepDoc fromiso now doc = false := by
            unfold keepDoc
            rw [hps, hpe]
            simp [hlt]
          rw [get_active_loop_ok_mem fromiso now rest l h s]
          simp only [List.mem_cons, exists_eq_or_imp, hk]
          simp
        case _ hlt =>
          split at h
          case _ hfut =>
            have hk : keepDoc fromiso now doc = false := by
              unfold keepDoc
              rw [hps, hpe]
              simp only [hlt, ite_false, hfut, ite_true]
            rw [get_active_loop_ok_mem fromiso now rest l h s]
            simp only [List.mem_cons, exists_eq_or_imp, hk]
            simp
          case _ hfut =>
            have hk : keepDoc fromiso now doc = true := by
              unfold keepDoc
              rw [hps, hpe]
              simp [hlt, hfut]
            split at h
            case _ hser => exact absurd h (by simp)
            case _ s0 hser =>
              split at h
              case _ l0 hr =>
                simp only [Res.ok.injEq] at h
                subst h
                rw [List.mem_cons,
                  get_active_loop_ok_mem fromiso now rest l0 hr s]
                simp only [List.mem_cons, exists_eq_or_imp, hk, hser,
                  and_true, Option.some.injEq]
                exact or_congr eq_comm Iff.rfl
              case _ hr hne => exact absurd h (hne l)

theorem serialize_fields (d : Doc) (s : SDoc) (h : _serialize d = some s) :
    d._id = s.id ∧ d.message = s.message ∧ d.start_date = s.start_date
    ∧ d.expiration_date = some s.expiration_date ∧ d.created_at = s.created_at := by
  unfold _serialize at h
  split at h
  · exact absurd h (by simp)
  · rename_i e he
    simp only [Option.some.injEq] at h
    subst h
    exact ⟨rfl, rfl, rfl, he, rfl⟩

/-- C1: a stored record is included in the result of the list-active
operation if and only if its parsed `expiration_date` is `≥ now` and its
`start_date` is absent or parses to a value `≤ now`, where `now` is the
single UTC instant the handler reads once and uses for every record. -/
theorem C1_active_listing_iff (fromiso : String → Option PyDateTime)
    (now : PyDateTime) (store : Store) (l : List SDoc) (doc : Doc) (s : SDoc)
    (h : get_active_announcements fromiso now store = .ok l)
    (hd : doc ∈ store) (hs : _serialize doc = some s) :
    s ∈ l ↔ specActive fromiso now doc := by
  unfold get_active_announcements at h
  rw [get_active_loop_ok_mem fromiso now (sortDocs store) l h s]
  constructor
  · rintro ⟨d, hdm, hser, hk⟩
    rw [← keepDoc_eq_true_iff]
    have f1 := serialize_fields d s hser
    have f2 := serialize_fields doc s hs
    rw [keepDoc_congr fromiso now doc d
      (by rw [f2.2.2.1, f1.2.2.1]) (by rw [f2.2.2.2.1, f1.2.2.2.1])]
    exact hk
  · intro hsa
    refine ⟨doc, ?_, hs, (keepDoc_eq_true_iff fromiso now doc).mpr hsa⟩
    exact (List.perm_insertionSort docBefore store).mem_iff.mpr hd

/-- Witness for `C1_active_listing_iff`: a non-expired record with no
`start_date` is listed, and the inclusion is equivalent to the spec's
active-window condition. -/
theorem C1_active_listing_iff_witness :
    get_active_announcements testIso tnow
      [⟨"a", "hello", none, some "2099-01-01T00:00:00Z", some "c1"⟩,
       ⟨"b", "old", none, some "2000-01-01T00:00:00Z", some "c2"⟩]
      = .ok [⟨"a", "hello", none, "2099-01-01T00:00:00Z", some "c1"⟩]
    ∧ ((⟨"a", "hello", none, "2099-01-01T00:00:00Z", some "c1"⟩ : SDoc)
        ∈ [(⟨"a", "hello", none, "2099-01-01T00:00:00Z", some "c1"⟩ : SDoc)]
       ↔ specActive testIso tnow
          ⟨"a", "hello", none, some "2099-01-01T00:00:00Z", some "c1"⟩) :=
  ⟨by decide,
   C1_active_listing_iff testIso tnow
     [⟨"a", "hello", none, some "2099-01-01T00:00:00Z", some "c1"⟩,
      ⟨"b", "old", none, some "2000-01-01T00:00:00Z", some "c2"⟩]
     [⟨"a", "hello", none, "2099-01-01T00:00:00Z", some "c1"⟩]
     ⟨"a", "hello", none, some "2099-01-01T00:00:00Z", some "c1"⟩
     ⟨"a", "hello", none, "2099-01-01T00:00:00Z", some "c1"⟩
     (by decide) (by decide) (by decide)⟩

theorem get_active_loop_missing (fromiso : String → Option PyDateTime)
    (now : PyDateTime) :
    ∀ docs : List Doc,
      (∀ d ∈ docs, ∃ x,
        _parse_iso_date fromiso d.start_date "start_date" false = .ok x) →
      (∀ d ∈ docs, ∀ v, d.expiration_date = some v → ∃ x,
        _parse_iso_date fromiso (some v) "expiration_date" true = .ok x) →
      (∃ d ∈ docs, d.expiration_date = none) →
      get_active_loop fromiso now docs =
        .err ⟨400, "expiration_date is required"⟩
  | [], _, _, hex => by simp at hex
  | doc :: rest, hstart, hexp, hex => by
    unfold get_active_loop
    obtain ⟨xs, hps⟩ := hstart doc (List.mem_cons_self doc rest)
    rw [hps]
    cases he : doc.expiration_date with
    | none => rfl
    | some v =>
      obtain ⟨xe, hpe⟩ := hexp doc (List.mem_cons_self doc rest) v he
      cases xe with
      | none =>
        exact absurd hpe (parse_some_ne_ok_none fromiso v "expiration_date" true)
      | some ed =>
        have hex2 : ∃ d ∈ rest, d.expiration_date = none := by
          obtain ⟨d, hdm, hdn⟩ := hex
          rcases List.mem_cons.mp hdm with heq | hm
          · subst heq
            rw [he] at hdn
            exact absurd hdn (by simp)
          · exact ⟨d, hm, hdn⟩
        have hrest := get_active_loop_missing fromiso now rest
          (fun d hd => hstart d (List.mem_cons_of_mem doc hd))
          (fun d hd => hexp d (List.mem_cons_of_mem doc hd)) hex2
        rw [hpe, hrest]
        have hser : _serialize doc = some ⟨doc._id, doc.message,
            doc.start_date, v, doc.created_at⟩ := by
          unfold _serialize
          rw [he]
        dsimp only
        rw [hser]
        split_ifs <;> rfl

/-- C2: if the store contains a record with no `expiration_date` (and every
present date parses), the list-active operation raises the required-field
validation error to the caller instead of skipping the record and returning
the rest. -/
theorem C2_missing_expiration_fails (fromiso : String → Option PyDateTime)
    (now : PyDateTime) (store : Store)
    (hstart : ∀ d ∈ store, ∃ x,
      _parse_iso_date fromiso d.start_date "start_date" false = .ok x)
    (hexp : ∀ d ∈ store, ∀ v, d.expiration_date = some v → ∃ x,
      _parse_iso_date fromiso (some v) "expiration_date" true = .ok x)
    (hex : ∃ d ∈ store, d.expiration_date = none) :
    get_active_announcements fromiso now store =
      .err ⟨400, "expiration_date is required"⟩ := by
  unfold get_active_announcements
  have hperm := List.perm_insertionSort docBefore store
  apply get_active_loop_missing
  · exact fun d hd => hstart d (hperm.mem_iff.mp hd)
  · exact fun d hd => hexp d (hperm.mem_iff.mp hd)
  · obtain ⟨d, hdm, hdn⟩ := hex
    exact ⟨d, hperm.mem_iff.mpr hdm, hdn⟩

/-- Witness for `C2_missing_expiration_fails`: a store holding a healthy
record and one lacking `expiration_date` makes the listing fail. -/
theorem C2_missing_expiration_fails_witness :
    get_active_announcements testIso tnow
      [⟨"a", "hello", none, some "2099-01-01T00:00:00Z", some "c1"⟩,
       ⟨"b", "broken", none, none, some "c2"⟩]
      = .err ⟨400, "expiration_date is required"⟩ :=
  C2_missing_expiration_fails testIso tnow
    [⟨"a", "hello", none, some "2099-01-01T00:00:00Z", some "c1"⟩,
     ⟨"b", "broken", none, none, some "c2"⟩]
    (by
      intro d hd
      rcases List.mem_cons.mp hd with h | h
      · subst h; exact ⟨none, rfl⟩
      · simp only [List.mem_singleton] at h; subst h; exact ⟨none, rfl⟩)
    (by
      intro d hd v hv
      rcases List.mem_cons.mp hd with h | h
      · subst h
        simp only [Option.some.injEq] at hv
        subst hv
        exact ⟨some ⟨99, some 0⟩, by decide⟩
      · simp only [List.mem_singleton] at h; subst h; simp at hv)
    ⟨⟨"b", "broken", none, none, some "c2"⟩, by decide, rfl⟩

/-! ### Store lemmas -/

theorem find_one_update_one (aid : String) (u : UpdateFields) :
    ∀ (store : Store) (d : Doc), find_one aid store = some d →
      find_one aid (update_one aid u store) = some (applySet u d)
  | [], d, h => by simp [find_one] at h
  | x :: rest, d, h => by
    by_cases hx : x._id = aid
    · unfold find_one at h
      rw [if_pos hx] at h
      unfold update_one
      rw [if_pos hx]
      unfold find_one
      rw [if_pos (show (applySet u x)._id = aid from hx)]
      simp only [Option.some.injEq] at h ⊢
      rw [h]
    · unfold find_one at h
      rw [if_neg hx] at h
      unfold update_one
      rw [if_neg hx]
      unfold find_one
      rw [if_neg hx]
      exact find_one_update_one aid u rest d h

theorem store_decomp (aid : String) (u : UpdateFields) :
    ∀ (store : Store) (d : Doc), find_one aid store = some d →
      ∃ pre post, store = pre ++ d :: post ∧ (∀ x ∈ pre, x._id ≠ aid)
        ∧ d._id = aid
        ∧ update_one aid u store = pre ++ applySet u d :: post
        ∧ delete_one aid store = (1, pre ++ post)
  | [], d, h => by simp [find_one] at h
  | x :: rest, d, h => by
    by_cases hx : x._id = aid
    · unfold find_one at h
      rw [if_pos hx] at h
      simp only [Option.some.injEq] at h
      subst h
      refine ⟨[], rest, rfl, by simp, hx, ?_, ?_⟩
      · unfold update_one
        rw [if_pos hx]
        rfl
      · unfold delete_one
        rw [if_pos hx]
        rfl
    · unfold find_one at h
      rw [if_neg hx] at h
      obtain ⟨pre, post, h1, h2, h3, h4, h5⟩ := store_decomp aid u rest d h
      refine ⟨x :: pre, post, by rw [List.cons_append, h1],
        ?_, h3, ?_, ?_⟩
      · intro y hy
        rcases List.mem_cons.mp hy with rfl | hm
        · exact hx
        · exact h2 y hm
      · unfold update_one
        rw [if_neg hx, h4]
        rfl
      · unfold delete_one
        rw [if_neg hx]
        simp [h5]

theorem delete_one_miss (aid : String) :
    ∀ store : Store, (∀ d ∈ store, d._id ≠ aid) →
      delete_one aid store = (0, store)
  | [], _ => rfl
  | x :: rest, h => by
    unfold delete_one
    rw [if_neg (h x (List.mem_cons_self x rest))]
    simp only [delete_one_miss aid rest
      (fun d hd => h d (List.mem_cons_of_mem x hd))]

/-- C3: a create or update call that fails with a validation error (any
raised `HTTPException`) leaves the document store exactly as it was: all
checks run before any insert or field update. -/
theorem C3_no_partial_writes (fromiso : String → Option PyDateTime)
    (isoformat : PyDateTime → String) (now : PyDateTime) (new_id : String)
    (teachers : List String) (payload : AnnouncementUpsert)
    (teacher_username announcement_id : String) (store : Store) :
    (∀ e, (create_announcement fromiso isoformat now new_id teachers payload
        teacher_username store).1 = .err e →
      (create_announcement fromiso isoformat now new_id teachers payload
        teacher_username store).2 = store)
    ∧ (∀ e, (update_announcement fromiso isoformat announcement_id teachers
        payload teacher_username store).1 = .err e →
      (update_announcement fromiso isoformat announcement_id teachers
        payload teacher_username store).2 = store) := by
  constructor
  · intro e
    unfold create_announcement
    dsimp only [_serialize]
    repeat' split
    all_goals intro h
    all_goals first | rfl | simp at h
  · intro e
    unfold update_announcement
    dsimp only [_serialize]
    repeat' split
    all_goals intro h
    all_goals first | rfl | simp at h

/-- Witness for `C3_no_partial_writes`: a create and an update that fail the
credential check leave an empty store empty. -/
theorem C3_no_partial_writes_witness :
    (create_announcement testIso testFmt tnow "id9" []
      ⟨"hi", "2099-01-01T00:00:00Z", none⟩ "t" []).2 = []
    ∧ (update_announcement testIso testFmt "a" []
      ⟨"hi", "2099-01-01T00:00:00Z", none⟩ "t" []).2 = [] :=
  ⟨(C3_no_partial_writes testIso testFmt tnow "id9" []
      ⟨"hi", "2099-01-01T00:00:00Z", none⟩ "t" "a" []).1
      ⟨401, "Invalid teacher credentials"⟩ (by decide),
   (C3_no_partial_writes testIso testFmt tnow "id9" []
      ⟨"hi", "2099-01-01T00:00:00Z", none⟩ "t" "a" []).2
      ⟨401, "Invalid teacher credentials"⟩ (by decide)⟩

/-- C10: the update handler never reaches an unhandled exception. -/
theorem C10_update_never_crashes (fromiso : String → Option PyDateTime)
    (isoformat : PyDateTime → String) (announcement_id : String)
    (teachers : List String) (payload : AnnouncementUpsert)
    (teacher_username : String) (store : Store) :
    (update_announcement fromiso isoformat announcement_id teachers payload
      teacher_username store).1 ≠ Res.crash := by
  unfold update_announcement
  cases hval : _validate_teacher teachers teacher_username with
  | error e => simp
  | ok u0 =>
    cases hfind : find_one announcement_id store with
    | none => simp
    | some d0 =>
      cases hps : _parse_iso_date fromiso payload.start_date
          "start_date" false with
      | error e => simp
      | ok sd? =>
        cases hpe : _parse_iso_date fromiso (some payload.expiration_date)
            "expiration_date" true with
        | error e => simp
        | ok ed? =>
          cases ed? with
          | none =>
            exact absurd hpe (parse_some_ne_ok_none fromiso
              payload.expiration_date "expiration_date" true)
          | some ed =>
            by_cases hge : startGeExp sd? ed = true
            · simp [hge]
            · have hup := find_one_update_one announcement_id
                ⟨pyStrip payload.message, isoOpt isoformat sd?,
                 isoformat ed⟩ store d0 hfind
              by_cases hmsg : pyStrip payload.message = ""
              · simp [hge, hmsg]
              · simp [hge, hmsg, hup, _serialize, applySet]

theorem find_one_exists (aid : String) :
    ∀ store : Store, (∃ d ∈ store, d._id = aid) →
      ∃ d, find_one aid store = some d
  | [], hex => by simp at hex
  | x :: rest, hex => by
    by_cases hx : x._id = aid
    · exact ⟨x, by unfold find_one; rw [if_pos hx]⟩
    · obtain ⟨d, hdm, hdi⟩ := hex
      rcases List.mem_cons.mp hdm with rfl | hm
      · exact absurd hdi hx
      · obtain ⟨d2, hd2⟩ := find_one_exists aid rest ⟨d, hm, hdi⟩
        exact ⟨d2, by unfold find_one; rw [if_neg hx]; exact hd2⟩

/-- C9: delete fails with 401 when the caller's teacher identity is not in
the credential store, leaving the announcements store untouched; with valid
credentials it fails with 404 exactly when no stored record has the given
id (for every store, hence regardless of prior calls), and otherwise it
removes the first matching record and returns the confirmation message. -/
theorem C9_delete_contract (announcement_id : String) (teachers : List String)
    (teacher_username : String) (store : Store) :
    (teacher_username ∉ teachers →
      delete_announcement announcement_id teachers teacher_username store
        = (.err ⟨401, "Invalid teacher credentials"⟩, store))
    ∧ (teacher_username ∈ teachers →
        ((∀ d ∈ store, d._id ≠ announcement_id) →
          delete_announcement announcement_id teachers teacher_username store
            = (.err ⟨404, "Announcement not found"⟩, store))
        ∧ ((∃ d ∈ store, d._id = announcement_id) →
          ∃ pre x post, store = pre ++ x :: post
            ∧ (∀ y ∈ pre, y._id ≠ announcement_id)
            ∧ x._id = announcement_id
            ∧ delete_announcement announcement_id teachers teacher_username
                store = (.ok "Announcement deleted", pre ++ post))) := by
  constructor
  · intro hmem
    unfold delete_announcement _validate_teacher
    rw [if_neg hmem]
  · intro hmem
    constructor
    · intro hmiss
      unfold delete_announcement _validate_teacher
      rw [if_pos hmem]
      dsimp only
      rw [delete_one_miss announcement_id store hmiss]
      rfl
    · intro hex
      obtain ⟨d, hfind⟩ := find_one_exists announcement_id store hex
      obtain ⟨pre, post, h1, h2, h3, _, h5⟩ :=
        store_decomp announcement_id ⟨"", none, ""⟩ store d hfind
      refine ⟨pre, d, post, h1, h2, h3, ?_⟩
      unfold delete_announcement _validate_teacher
      rw [if_pos hmem]
      dsimp only
      rw [h5]
      rfl

/-- Witness for `C9_delete_contract`: the three delete outcomes at concrete
inputs. -/
theorem C9_delete_contract_witness :
    delete_announcement "a" ["t"] "u"
      [⟨"a", "hello", none, some "2099-01-01T00:00:00Z", some "c1"⟩]
      = (.err ⟨401, "Invalid teacher credentials"⟩,
         [⟨"a", "hello", none, some "2099-01-01T00:00:00Z", some "c1"⟩])
    ∧ delete_announcement "z" ["t"] "t"
      [⟨"a", "hello", none, some "2099-01-01T00:00:00Z", some "c1"⟩]
      = (.err ⟨404, "Announcement not found"⟩,
         [⟨"a", "hello", none, some "2099-01-01T00:00:00Z", some "c1"⟩])
    ∧ ∃ pre x post,
        ([⟨"a", "hello", none, some "2099-01-01T00:00:00Z", some "c1"⟩] :
          Store) = pre ++ x :: post
        ∧ (∀ y ∈ pre, y._id ≠ "a")
        ∧ x._id = "a"
        ∧ delete_announcement "a" ["t"] "t"
            [⟨"a", "hello", none, some "2099-01-01T00:00:00Z", some "c1"⟩]
            = (.ok "Announcement deleted", pre ++ post) :=
  ⟨(C9_delete_contract "a" ["t"] "u"
      [⟨"a", "hello", none, some "2099-01-01T00:00:00Z", some "c1"⟩]).1
      (by decide),
   ((C9_delete_contract "z" ["t"] "t"
      [⟨"a", "hello", none, some "2099-01-01T00:00:00Z", some "c1"⟩]).2
      (by decide)).1 (by decide),
   ((C9_delete_contract "a" ["t"] "t"
      [⟨"a", "hello", none, some "2099-01-01T00:00:00Z", some "c1"⟩]).2
      (by decide)).2
      ⟨⟨"a", "hello", none, some "2099-01-01T00:00:00Z", some "c1"⟩,
        by decide, rfl⟩⟩

/-- C4: with valid credentials and both dates parsing, a payload whose
parsed `start_date` is `≥` the parsed `expiration_date` (equality included)
makes create — and update, when the record exists — fail with the
`InvalidRange` error, while a strictly smaller `start_date` never triggers
that error. -/
theorem C4_invalid_range (fromiso : String → Option PyDateTime)
    (isoformat : PyDateTime → String) (now : PyDateTime) (new_id : String)
    (teachers : List String) (payload : AnnouncementUpsert)
    (teacher_username announcement_id : String) (store : Store)
    (sd ed : PyDateTime)
    (hmem : teacher_username ∈ teachers)
    (hps : _parse_iso_date fromiso payload.start_date "start_date" false
      = .ok (some sd))
    (hpe : _parse_iso_date fromiso (some payload.expiration_date)
      "expiration_date" true = .ok (some ed)) :
    (ed.instant ≤ sd.instant →
      (create_announcement fromiso isoformat now new_id teachers payload
          teacher_username store).1
        = .err ⟨400, "start_date must be before expiration_date"⟩
      ∧ ((∃ d, find_one announcement_id store = some d) →
        (update_announcement fromiso isoformat announcement_id teachers
            payload teacher_username store).1
          = .err ⟨400, "start_date must be before expiration_date"⟩))
    ∧ (sd.instant < ed.instant →
      (create_announcement fromiso isoformat now new_id teachers payload
          teacher_username store).1
        ≠ .err ⟨400, "start_date must be before expiration_date"⟩
      ∧ (update_announcement fromiso isoformat announcement_id teachers
          payload teacher_username store).1
        ≠ .err ⟨400, "start_date must be before expiration_date"⟩) := by
  have hval : _validate_teacher teachers teacher_username = .ok () := by
    unfold _validate_teacher
    rw [if_pos hmem]
  constructor
  · intro hle
    have hge : startGeExp (some sd) ed = true := by
      unfold startGeExp
      exact decide_eq_true hle
    constructor
    · unfold create_announcement
      rw [hval, hps, hpe]
      dsimp only
      rw [if_pos hge]
    · rintro ⟨d, hd⟩
      unfold update_announcement
      rw [hval, hd, hps, hpe]
      dsimp only
      rw [if_pos hge]
  · intro hlt
    have hge : ¬ startGeExp (some sd) ed = true := by
      unfold startGeExp
      simp
      omega
    constructor
    · unfold create_announcement
      rw [hval, hps, hpe]
      dsimp only
      rw [if_neg hge]
      by_cases hmsg : pyStrip payload.message = ""
      · rw [if_pos hmsg]
        simp
      · rw [if_neg hmsg]
        dsimp only [_serialize]
        simp
    · unfold update_announcement
      rw [hval]
      cases hd : find_one announcement_id store with
      | none => simp
      | some d0 =>
        rw [hps, hpe]
        dsimp only
        rw [if_neg hge]
        by_cases hmsg : pyStrip payload.message = ""
        · rw [if_pos hmsg]
          simp
        · rw [if_neg hmsg]
          cases hf2 : find_one announcement_id (update_one announcement_id
            ⟨pyStrip payload.message, isoOpt isoformat (some sd),
             isoformat ed⟩ store) with
          | none => simp
          | some updated =>
            cases hs2 : _serialize updated with
            | none => simp [hs2]
            | some s2 => simp [hs2]

/-- Witness for `C4_invalid_range`: `start_date = expiration_date` is
rejected with `InvalidRange` by create and update, while a strictly earlier
`start_date` is not. -/
theorem C4_invalid_range_witness :
    (create_announcement testIso testFmt tnow "id9" ["t"]
      ⟨"hi", "2050-01-01T00:00:00Z", some "2050-01-01T00:00:00Z"⟩ "t"
      [⟨"a", "hello", none, some "2099-01-01T00:00:00Z", some "c1"⟩]).1
      = .err ⟨400, "start_date must be before expiration_date"⟩
    ∧ (update_announcement testIso testFmt "a" ["t"]
      ⟨"hi", "2050-01-01T00:00:00Z", some "2050-01-01T00:00:00Z"⟩ "t"
      [⟨"a", "hello", none, some "2099-01-01T00:00:00Z", some "c1"⟩]).1
      = .err ⟨400, "start_date must be before expiration_date"⟩
    ∧ (create_announcement testIso testFmt tnow "id9" ["t"]
      ⟨"hi", "2099-01-01T00:00:00Z", some "2050-01-01T00:00:00Z"⟩ "t"
      [⟨"a", "hello", none, some "2099-01-01T00:00:00Z", some "c1"⟩]).1
      ≠ .err ⟨400, "start_date must be before expiration_date"⟩ :=
  ⟨((C4_invalid_range testIso testFmt tnow "id9" ["t"]
      ⟨"hi", "2050-01-01T00:00:00Z", some "2050-01-01T00:00:00Z"⟩ "t" "a"
      [⟨"a", "hello", none, some "2099-01-01T00:00:00Z", some "c1"⟩]
      ⟨50, some 0⟩ ⟨50, some 0⟩ (by decide) (by decide) (by decide)).1
      (by decide)).1,
   ((C4_invalid_range testIso testFmt tnow "id9" ["t"]
      ⟨"hi", "2050-01-01T00:00:00Z", some "2050-01-01T00:00:00Z"⟩ "t" "a"
      [⟨"a", "hello", none, some "2099-01-01T00:00:00Z", some "c1"⟩]
      ⟨50, some 0⟩ ⟨50, some 0⟩ (by decide) (by decide) (by decide)).1
      (by decide)).2
      ⟨⟨"a", "hello", none, some "2099-01-01T00:00:00Z", some "c1"⟩,
        by decide⟩,
   ((C4_invalid_range testIso testFmt tnow "id9" ["t"]
      ⟨"hi", "2099-01-01T00:00:00Z", some "2050-01-01T00:00:00Z"⟩ "t" "a"
      [⟨"a", "hello", none, some "2099-01-01T00:00:00Z", some "c1"⟩]
      ⟨50, some 0⟩ ⟨99, some 0⟩ (by decide) (by decide) (by decide)).2
      (by decide)).1⟩

/-- C6 counterexample: an empty-string message is rejected by the request
model's `min_length=1` validation (FastAPI's 422 request-validation error)
before the handler runs, not by the handler's `EmptyMessage` 400 error, for
create and update alike. -/
theorem C6_counterexample :
    (create_endpoint testIso testFmt tnow "id9" ["t"] ""
        "2099-01-01T00:00:00Z" none "t" []).1
      = .err ⟨422, "String should have at least 1 character"⟩
    ∧ (create_endpoint testIso testFmt tnow "id9" ["t"] ""
        "2099-01-01T00:00:00Z" none "t" []).1
      ≠ .err ⟨400, "message must not be empty or contain only whitespace"⟩
    ∧ (update_endpoint testIso testFmt "a" ["t"] ""
        "2099-01-01T00:00:00Z" none "t"
        [⟨"a", "hello", none, some "2099-01-01T00:00:00Z", some "c1"⟩]).1
      = .err ⟨422, "String should have at least 1 character"⟩ := by
  refine ⟨by decide, by decide, by decide⟩

/-- C6 amended: a payload whose message passes the model's length bounds but
consists only of whitespace makes create — and update, when the record
exists — fail with the `EmptyMessage` error, provided credentials are valid,
both dates parse and the cross-field rule holds; an empty-string message is
instead rejected by the model's `min_length=1` check with a request-validation
error. -/
theorem C6_empty_message_amended (fromiso : String → Option PyDateTime)
    (isoformat : PyDateTime → String) (now : PyDateTime) (new_id : String)
    (teachers : List String) (message expiration_date : String)
    (start_date : Option String) (teacher_username announcement_id : String)
    (store : Store) (sd? : Option PyDateTime) (ed : PyDateTime)
    (hmem : teacher_username ∈ teachers)
    (hlen1 : 1 ≤ message.length) (hlen2 : message.length ≤ 500)
    (hws : pyStrip message = "")
    (hps : _parse_iso_date fromiso start_date "start_date" false = .ok sd?)
    (hpe : _parse_iso_date fromiso (some expiration_date)
      "expiration_date" true = .ok (some ed))
    (hge : startGeExp sd? ed = false) :
    (create_endpoint fromiso isoformat now new_id teachers message
        expiration_date start_date teacher_username store).1
      = .err ⟨400, "message must not be empty or contain only whitespace"⟩
    ∧ ((∃ d, find_one announcement_id store = some d) →
      (update_endpoint fromiso isoformat announcement_id teachers message
          expiration_date start_date teacher_username store).1
        = .err ⟨400, "message must not be empty or contain only whitespace"⟩) := by
  have hval : _validate_teacher teachers teacher_username = .ok () := by
    unfold _validate_teacher
    rw [if_pos hmem]
  have hvu : validate_upsert message expiration_date start_date
      = .ok ⟨message, expiration_date, start_date⟩ := by
    unfold validate_upsert
    rw [if_neg (by omega), if_neg (by omega)]
  have hgef : ¬ startGeExp sd? ed = true := by
    rw [hge]
    simp
  constructor
  · unfold create_endpoint
    rw [hvu]
    dsimp only
    unfold create_announcement
    rw [hval]
    dsimp only
    rw [hps, hpe]
    dsimp only
    rw [if_neg hgef, if_pos hws]
  · rintro ⟨d, hd⟩
    unfold update_endpoint
    rw [hvu]
    dsimp only
    unfold update_announcement
    rw [hval]
    dsimp only
    rw [hd]
    dsimp only
    rw [hps, hpe]
    dsimp only
    rw [if_neg hgef, if_pos hws]

/-- Witness for `C6_empty_message_amended`: a one-space message is rejected
with the `EmptyMessage` error by create and update. -/
theorem C6_empty_message_amended_witness :
    (create_endpoint testIso testFmt tnow "id9" ["t"] " "
        "2099-01-01T00:00:00Z" none "t"
        [⟨"a", "hello", none, some "2099-01-01T00:00:00Z", some "c1"⟩]).1
      = .err ⟨400, "message must not be empty or contain only whitespace"⟩
    ∧ (update_endpoint testIso testFmt "a" ["t"] " "
        "2099-01-01T00:00:00Z" none "t"
        [⟨"a", "hello", none, some "2099-01-01T00:00:00Z", some "c1"⟩]).1
      = .err ⟨400, "message must not be empty or contain only whitespace"⟩ :=
  ⟨(C6_empty_message_amended testIso testFmt tnow "id9" ["t"] " "
      "2099-01-01T00:00:00Z" none "t" "a"
      [⟨"a", "hello", none, some "2099-01-01T00:00:00Z", some "c1"⟩]
      none ⟨99, some 0⟩ (by decide) (by decide) (by decide) (by decide)
      (by decide) (by decide) (by decide)).1,
   (C6_empty_message_amended testIso testFmt tnow "id9" ["t"] " "
      "2099-01-01T00:00:00Z" none "t" "a"
      [⟨"a", "hello", none, some "2099-01-01T00:00:00Z", some "c1"⟩]
      none ⟨99, some 0⟩ (by decide) (by decide) (by decide) (by decide)
      (by decide) (by decide) (by decide)).2
      ⟨⟨"a", "hello", none, some "2099-01-01T00:00:00Z", some "c1"⟩,
        by decide⟩⟩

/-- C7: a successful update replaces only the `message`, `start_date` and
`expiration_date` fields of the first record matching the id — its `_id` and
`created_at` are untouched — and leaves every other record in the store
unchanged. -/
theorem C7_update_frame (fromiso : String → Option PyDateTime)
    (isoformat : PyDateTime → String) (announcement_id : String)
    (teachers : List String) (payload : AnnouncementUpsert)
    (teacher_username : String) (store store2 : Store) (s : SDoc)
    (h : update_announcement fromiso isoformat announcement_id teachers
      payload teacher_username store = (.ok s, store2)) :
    ∃ pre d d2 post,
      store = pre ++ d :: post
      ∧ store2 = pre ++ d2 :: post
      ∧ (∀ x ∈ pre, x._id ≠ announcement_id)
      ∧ d._id = announcement_id
      ∧ d2._id = d._id
      ∧ d2.created_at = d.created_at
      ∧ d2.message = pyStrip payload.message := by
  unfold update_announcement at h
  cases hval : _validate_teacher teachers teacher_username with
  | error e1 => rw [hval] at h; simp at h
  | ok u0 =>
    rw [hval] at h
    dsimp only at h
    cases hfind : find_one announcement_id store with
    | none => rw [hfind] at h; simp at h
    | some d0 =>
      rw [hfind] at h
      dsimp only at h
      cases hps : _parse_iso_date fromiso payload.start_date
          "start_date" false with
      | error e1 => rw [hps] at h; simp at h
      | ok sd? =>
        rw [hps] at h
        dsimp only at h
        cases hpe : _parse_iso_date fromiso (some payload.expiration_date)
            "expiration_date" true with
        | error e1 => rw [hpe] at h; simp at h
        | ok ed? =>
          rw [hpe] at h
          cases ed? with
          | none => simp at h
          | some ed =>
            dsimp only at h
            by_cases hge : startGeExp sd? ed = true
            · rw [if_pos hge] at h; simp at h
            · rw [if_neg hge] at h
              by_cases hmsg : pyStrip payload.message = ""
              · rw [if_pos hmsg] at h; simp at h
              · rw [if_neg hmsg] at h
                rw [find_one_update_one announcement_id
                  ⟨pyStrip payload.message, isoOpt isoformat sd?,
                   isoformat ed⟩ store d0 hfind] at h
                dsimp only [_serialize, applySet] at h
                simp only [Prod.mk.injEq, Res.ok.injEq] at h
                obtain ⟨-, hst⟩ := h
                obtain ⟨pre, post, h1, h2, h3, h4, -⟩ :=
                  store_decomp announcement_id
                    ⟨pyStrip payload.message, isoOpt isoformat sd?,
                     isoformat ed⟩ store d0 hfind
                refine ⟨pre, d0,
                  applySet ⟨pyStrip payload.message, isoOpt isoformat sd?,
                    isoformat ed⟩ d0, post, h1, ?_, h2, h3, rfl, rfl, rfl⟩
                rw [← hst, h4]

/-- Witness for `C7_update_frame` at a concrete successful update. -/
theorem C7_update_frame_witness :
    ∃ pre d d2 post,
      ([⟨"a", "hello", none, some "2099-01-01T00:00:00Z", some "c1"⟩] :
        Store) = pre ++ d :: post
      ∧ ([⟨"a", "new msg", some "dt50", some "dt99", some "c1"⟩] : Store)
        = pre ++ d2 :: post
      ∧ (∀ x ∈ pre, x._id ≠ "a")
      ∧ d._id = "a"
      ∧ d2._id = d._id
      ∧ d2.created_at = d.created_at
      ∧ d2.message = pyStrip "new msg" :=
  C7_update_frame testIso testFmt "a" ["t"]
    ⟨"new msg", "2099-01-01T00:00:00Z", some "2050-01-01T00:00:00Z"⟩ "t"
    [⟨"a", "hello", none, some "2099-01-01T00:00:00Z", some "c1"⟩]
    [⟨"a", "new msg", some "dt50", some "dt99", some "c1"⟩]
    ⟨"a", "new msg", some "dt50", "dt99", some "c1"⟩
    (by decide)

theorem sortDocs_perm (l : Store) : List.Perm (sortDocs l) l :=
  List.perm_insertionSort docBefore l

theorem validate_ok_mem (teachers : List String) (teacher_username : String)
    (u0 : Unit)
    (h : _validate_teacher teachers teacher_username = .ok u0) :
    teacher_username ∈ teachers := by
  by_cases hm : teacher_username ∈ teachers
  · exact hm
  · unfold _validate_teacher at h
    rw [if_neg hm] at h
    simp at h

theorem serializeAll_isSome :
    ∀ docs : List Doc, (∀ d ∈ docs, d.expiration_date ≠ none) →
      ∃ l, serializeAll docs = some l
  | [], _ => ⟨[], rfl⟩
  | d :: rest, h => by
    obtain ⟨l, hl⟩ := serializeAll_isSome rest
      (fun x hx => h x (List.mem_cons_of_mem d hx))
    cases he : d.expiration_date with
    | none => exact absurd he (h d (List.mem_cons_self d rest))
    | some e =>
      refine ⟨⟨d._id, d.message, d.start_date, e, d.created_at⟩ :: l, ?_⟩
      unfold serializeAll
      have hs : _serialize d = some ⟨d._id, d.message, d.start_date, e,
          d.created_at⟩ := by
        unfold _serialize
        rw [he]
      rw [hs, hl]

theorem serializeAll_count (resp : SDoc) :
    ∀ (docs : List Doc) (l : List SDoc), serializeAll docs = some l →
      l.count resp = docs.countP (fun d => _serialize d == some resp)
  | [], l, h => by
    unfold serializeAll at h
    simp only [Option.some.injEq] at h
    subst h
    rfl
  | d :: rest, l, h => by
    unfold serializeAll at h
    cases hs : _serialize d with
    | none => rw [hs] at h; simp at h
    | some s =>
      rw [hs] at h
      cases hr : serializeAll rest with
      | none => rw [hr] at h; simp at h
      | some l0 =>
        rw [hr] at h
        dsimp only at h
        simp only [Option.some.injEq] at h
        subst h
        rw [List.count_cons, List.countP_cons,
          serializeAll_count resp rest l0 hr, hs]
        simp only [beq_iff_eq, Option.some.injEq]

/-- C8: after a successful create with a fresh id over a well-formed store,
a list-all call with the same valid teacher identity returns a sequence that
contains the created record exactly once — the whole normalized record, in
particular its `message`, `start_date` and `expiration_date`, is identical
to the create response. -/
theorem C8_create_roundtrip (fromiso : String → Option PyDateTime)
    (isoformat : PyDateTime → String) (now : PyDateTime) (new_id : String)
    (teachers : List String) (payload : AnnouncementUpsert)
    (teacher_username : String) (store store2 : Store) (resp : SDoc)
    (h : create_announcement fromiso isoformat now new_id teachers payload
      teacher_username store = (.ok resp, store2))
    (hfresh : ∀ d ∈ store, d._id ≠ new_id)
    (hwf : ∀ d ∈ store, d.expiration_date ≠ none) :
    ∃ l, get_all_announcements teachers teacher_username store2 = .ok l
      ∧ resp ∈ l ∧ l.count resp = 1 := by
  unfold create_announcement at h
  cases hval : _validate_teacher teachers teacher_username with
  | error e1 => rw [hval] at h; simp at h
  | ok u0 =>
    have hmem := validate_ok_mem teachers teacher_username u0 hval
    rw [hval] at h
    dsimp only at h
    cases hps : _parse_iso_date fromiso payload.start_date
        "start_date" false with
    | error e1 => rw [hps] at h; simp at h
    | ok sd? =>
      rw [hps] at h
      dsimp only at h
      cases hpe : _parse_iso_date fromiso (some payload.expiration_date)
          "expiration_date" true with
      | error e1 => rw [hpe] at h; simp at h
      | ok ed? =>
        rw [hpe] at h
        cases ed? with
        | none => simp at h
        | some ed =>
          dsimp only at h
          by_cases hge : startGeExp sd? ed = true
          · rw [if_pos hge] at h; simp at h
          · rw [if_neg hge] at h
            by_cases hmsg : pyStrip payload.message = ""
            · rw [if_pos hmsg] at h; simp at h
            · rw [if_neg hmsg] at h
              dsimp only [_serialize] at h
              simp only [Prod.mk.injEq, Res.ok.injEq] at h
              obtain ⟨hresp, hst⟩ := h
              subst hresp
              subst hst
              unfold get_all_announcements _validate_teacher
              rw [if_pos hmem]
              dsimp only
              have hwf2 : ∀ d ∈ sortDocs (store ++
                  [⟨new_id, pyStrip payload.message, isoOpt isoformat sd?,
                    some (isoformat ed), some (isoformat now)⟩]),
                  d.expiration_date ≠ none := by
                intro d hd
                have hd2 := (List.perm_insertionSort docBefore _).mem_iff.mp hd
                rcases List.mem_append.mp hd2 with hm | hm
                · exact hwf d hm
                · simp only [List.mem_singleton] at hm
                  subst hm
                  simp
              obtain ⟨l, hl⟩ := serializeAll_isSome _ hwf2
              rw [hl]
              have hcount : l.count (⟨new_id, pyStrip payload.message,
                  isoOpt isoformat sd?, isoformat ed,
                  some (isoformat now)⟩ : SDoc) = 1 := by
                rw [serializeAll_count _ _ l hl,
                  List.Perm.countP_eq _ (sortDocs_perm _),
                  List.countP_append]
                have hz : store.countP (fun d => _serialize d ==
                    some ⟨new_id, pyStrip payload.message,
                      isoOpt isoformat sd?, isoformat ed,
                      some (isoformat now)⟩) = 0 := by
                  rw [List.countP_eq_zero]
                  intro d hd
                  simp only [beq_iff_eq]
                  intro hser
                  have hid := (serialize_fields d _ hser).1
                  exact hfresh d hd hid
                rw [hz]
                simp [List.countP_cons, _serialize]
              exact ⟨l, rfl, List.count_pos_iff.mp (by omega), hcount⟩

/-- Witness for `C8_create_roundtrip` at a concrete create. -/
theorem C8_create_roundtrip_witness :
    ∃ l, get_all_announcements ["t"] "t"
        [⟨"a", "old", none, some "2000-01-01T00:00:00Z", some "c1"⟩,
         ⟨"id9", "hi", none, some "dt99", some "dt10"⟩] = .ok l
      ∧ (⟨"id9", "hi", none, "dt99", some "dt10"⟩ : SDoc) ∈ l
      ∧ l.count ⟨"id9", "hi", none, "dt99", some "dt10"⟩ = 1 :=
  C8_create_roundtrip testIso testFmt tnow "id9" ["t"]
    ⟨"  hi ", "2099-01-01T00:00:00Z", none⟩ "t"
    [⟨"a", "old", none, some "2000-01-01T00:00:00Z", some "c1"⟩]
    [⟨"a", "old", none, some "2000-01-01T00:00:00Z", some "c1"⟩,
     ⟨"id9", "hi", none, some "dt99", some "dt10"⟩]
    ⟨"id9", "hi", none, "dt99", some "dt10"⟩
    (by decide) (by decide) (by decide)

end Announcements
